import Mathlib

/-!
# A verification model of `chatlocal`'s chunking + incremental-index-build pipeline

This file embeds the core of the `chatlocal` repository
(`src/chatlocal/vectorstore.py`, `src/chatlocal/dataloader.py`,
`src/chatlocal/settings.py`) into Lean 4 and proves / refutes the frozen
specification claims about it.

Modelling conventions:
* Python strings are modelled as `List Char` where their content matters
  (document texts, chunk texts, separators); opaque identifiers (paths,
  provider error payloads) are modelled as `String`.
* Python exceptions are modelled by an `Err` value paired with the state at
  the moment the exception propagates: every stateful operation returns
  `Sys × Option Err`, `some e` meaning the Python call raised `e` and the
  returned `Sys` is the heap/filesystem/log state left behind.
* The FAISS wrapper object is modelled by `FAISSStore`: the parallel arrays
  of chunk texts and metadata entries, plus an optional attached backend
  index, itself abstracted by its vector count (`Nat`).  `faiss.write_index`
  on a `None` index raises (Python `TypeError`); reading a missing file
  raises (`RuntimeError` from faiss / `FileNotFoundError` from `open`).
* The embedding provider is modelled by an oracle `Nat → Option ProviderErr`
  giving the outcome of the k-th provider batch call of the execution; the
  system state carries the number of calls made so far.
-/

namespace Chatlocal

/-- A path-like source identifier (`Document.source` in `settings.py`). -/
abbrev Source := String

/-- Text content, modelled as a list of characters. -/
abbrev Text := List Char

/-- Model of `settings.py` `Document`: `{ text: str, source: Path }`. -/
structure Document where
  text : Text
  source : Source
deriving Repr, DecidableEq

/-- Model of `dataloader.py` `DataStore`: an ordered collection of `Document`s
(the class is a thin wrapper around `self.data: list[Document]`, iterated
in list order by `__iter__`/`__next__`). -/
abbrev DataStore := List Document

/-- Model of `settings.py` `Chunk`: parallel lists of chunk texts and metadata
entries.  Each metadata entry is the dict `{"source": doc.source}` built in
`VectorStore.chunk_datastore`, modelled by the `Source` it wraps. -/
structure ChunkT where
  docs : List Text
  metadatas : List Source
deriving Repr, DecidableEq

/-! ## The Chunker

`VectorStore` delegates text splitting to `langchain`'s
`CharacterTextSplitter`, which is external library code, not part of this
repository.  Following spec §4.1 it is modelled here from the spec. -/

/-- Modelled from the spec: the splitting half of the Chunker contract of
§4.1 ("Splits `text` on occurrences of `separator`").  The repository code
(`CharacterTextSplitter`) is external to `src/`.  Splits `text` at each
left-to-right, non-overlapping occurrence of `sep`; an empty separator
never matches, so the text is returned as a single piece. -/
def splitOnSepAux (sep : Text) (text : Text) (acc : Text) : List Text :=
  if h : sep ≠ [] ∧ sep <+: text then
    acc.reverse :: splitOnSepAux sep (text.drop sep.length) []
  else
    match text with
    | [] => [acc.reverse]
    | c :: rest => splitOnSepAux sep rest (c :: acc)
termination_by text.length
decreasing_by
  · have hle : sep.length ≤ text.length := h.2.length_le
    have hpos : 0 < sep.length := List.length_pos.mpr h.1
    simp only [List.length_drop]
    omega
  · simp

/-- Modelled from the spec: the re-merging half of the Chunker contract of
§4.1 ("greedily re-merges consecutive pieces so each emitted chunk's length
does not exceed `chunk_size` wherever possible; a single piece longer than
`chunk_size` is emitted as its own oversized chunk").  `cur` is the chunk
being accumulated; a piece is merged into it (re-inserting the separator)
when the result still fits in `chunkSize`, otherwise `cur` is emitted. -/
def mergeLoop (chunkSize : Nat) (sep : Text) (cur : Text) : List Text → List Text
  | [] => [cur]
  | p :: ps =>
    let cand := cur ++ sep ++ p
    if cand.length ≤ chunkSize then mergeLoop chunkSize sep cand ps
    else cur :: mergeLoop chunkSize sep p ps

/-- Modelled from the spec: the Chunker contract `split(text, chunk_size,
separator) -> sequence of string` of §4.1, as used by
`VectorStore.chunk_datastore` through `self.text_splitter.split_text`. -/
def splitText (chunkSize : Nat) (sep : Text) (text : Text) : List Text :=
  match splitOnSepAux sep text [] with
  | [] => []
  | p :: ps => mergeLoop chunkSize sep p ps

/-- If the separator does not occur in the remaining text, the splitter scan
returns the accumulated piece followed by the remaining text, as a single
piece. -/
theorem splitOnSepAux_no_occurrence (sep : Text) (text : Text) :
    ∀ acc, ¬ sep <:+: text → splitOnSepAux sep text acc = [acc.reverse ++ text] := by
  induction text with
  | nil =>
    intro acc hni
    rw [splitOnSepAux]
    have hnp : ¬ (sep ≠ [] ∧ sep <+: ([] : Text)) := by
      rintro ⟨hne, hpre⟩
      exact hne (List.prefix_nil.mp hpre)
    simp [dif_neg hnp]
  | cons c rest ih =>
    intro acc hni
    rw [splitOnSepAux]
    have hnp : ¬ (sep ≠ [] ∧ sep <+: (c :: rest)) := by
      rintro ⟨-, hpre⟩
      exact hni hpre.isInfix
    have hni' : ¬ sep <:+: rest := fun hinf => hni (List.infix_cons hinf)
    simp only [dif_neg hnp]
    rw [ih (c :: acc) hni']
    simp

/-- A nonempty text containing no occurrence of the separator is split into
exactly one piece: the text itself. -/
theorem splitText_no_occurrence (chunkSize : Nat) (sep text : Text)
    (hni : ¬ sep <:+: text) : splitText chunkSize sep text = [text] := by
  unfold splitText
  rw [splitOnSepAux_no_occurrence sep text [] hni]
  simp [mergeLoop]

/-- The greedy merge never swallows an oversized piece: the chunk currently
being accumulated, and every later piece, is kept as its own element of the
output whenever it is longer than `chunkSize`. -/
theorem mergeLoop_oversized_mem (chunkSize : Nat) (sep : Text) :
    ∀ (rest : List Text) (cur : Text),
      (chunkSize < cur.length → cur ∈ mergeLoop chunkSize sep cur rest) ∧
      (∀ p ∈ rest, chunkSize < p.length → p ∈ mergeLoop chunkSize sep cur rest)
  | [], cur => by
    refine ⟨fun _ => ?_, fun p hp => absurd hp (List.not_mem_nil p)⟩
    simp [mergeLoop]
  | q :: ps, cur => by
    have ih := mergeLoop_oversized_mem chunkSize sep ps
    constructor
    · intro hcur
      have hlong : ¬ (cur ++ sep ++ q).length ≤ chunkSize := by
        simp only [List.length_append]
        omega
      simp only [mergeLoop, if_neg hlong]
      exact List.mem_cons_self _ _
    · intro p hp hplen
      rcases List.mem_cons.mp hp with rfl | hps
      · have hlong : ¬ (cur ++ sep ++ p).length ≤ chunkSize := by
          simp only [List.length_append]
          omega
        simp only [mergeLoop, if_neg hlong]
        exact List.mem_cons_of_mem _ ((ih p).1 hplen)
      · by_cases hfit : (cur ++ sep ++ q).length ≤ chunkSize
        · simp only [mergeLoop, if_pos hfit]
          exact (ih (cur ++ sep ++ q)).2 p hps hplen
        · simp only [mergeLoop, if_neg hfit]
          exact List.mem_cons_of_mem _ ((ih q).2 p hps hplen)

/-- Every separator-delimited piece of the text that is longer than
`chunkSize` appears, whole, as its own element of the Chunker's output. -/
theorem splitText_oversized_mem (chunkSize : Nat) (sep text p : Text)
    (hp : p ∈ splitOnSepAux sep text []) (hplen : chunkSize < p.length) :
    p ∈ splitText chunkSize sep text := by
  unfold splitText
  match h : splitOnSepAux sep text [] with
  | [] => rw [h] at hp; exact absurd hp (List.not_mem_nil p)
  | q :: ps =>
    rw [h] at hp
    rcases List.mem_cons.mp hp with rfl | hps
    · exact (mergeLoop_oversized_mem chunkSize sep ps p).1 hplen
    · exact (mergeLoop_oversized_mem chunkSize sep ps q).2 p hps hplen

/-! ## Errors, logging, and the provider oracle -/

/-- Payload of an exception raised by the external embedding provider
(network/auth/rate-limit failures), opaque to the pipeline. -/
abbrev ProviderErr := String

/-- The Python exceptions the modelled pipeline can propagate. -/
inductive Err where
  /-- The `ValueError("Model type not supported")` raised by `get_embeddings`. -/
  | modelTypeNotSupported
  /-- An exception raised by an embedding-provider batch call, propagated
  unchanged out of `FAISS.from_texts` / `FAISS.add_texts`. -/
  | providerFailure (e : ProviderErr)
  /-- The `TypeError` raised by `faiss.write_index(None, path)` when the
  wrapper's `index` attribute has been detached. -/
  | writeIndexTypeError
  /-- The `RuntimeError` raised by `faiss.read_index` on a missing index file. -/
  | indexFileMissing
  /-- The `FileNotFoundError` raised by `store_path.open("rb")` on a missing
  store file. -/
  | storeFileMissing
  /-- An `AttributeError`: `self.store` accessed before ever being assigned. -/
  | storeAttrMissing
  /-- An `AttributeError`: `.add` invoked on a `None` backend index inside
  `FAISS.add_texts`. -/
  | indexDetached
  /-- The `ValueError` raised by `range(start, n, 0)`. -/
  | rangeStepZero
deriving Repr, DecidableEq

/-- The log lines the pipeline emits (loguru calls), abstracted to their
message identity and the numbers interpolated into them. -/
inductive LogMsg where
  /-- info `"Building vectorstore from {n} documents"` -/
  | buildingFrom (n : Nat)
  /-- success `"Processed datastore into {k} chunks."` -/
  | processedInto (k : Nat)
  /-- info `"Initailizing vectorstore for first {s} documents"` -/
  | initializingFirst (s : Nat)
  /-- success `"Initialized vectorstore"` -/
  | initializedStore
  /-- warning `"Store already initialized."` -/
  | alreadyInitialized
  /-- info `"Adding range {i}-{j} of {n}"` -/
  | addingRange (i j n : Nat)
  /-- success `"Extended vectorstore. Please save to disk to keep changes!"` -/
  | extendedStore
  /-- info `"Store not found at {path}. Please first initialize the store
  with .create_store."` -/
  | storeNotFoundCreateFirst
  /-- error `"Aborting because no store is found to extend."` -/
  | abortingNoStore
  /-- info `"Loading vectorstore from {path}"` -/
  | loadingFrom
  /-- success `"Saved vectorstore to {store_path} and {index_path}"` -/
  | savedStore
deriving Repr, DecidableEq

/-- Model of `settings.py` `ModelType`, which has exactly the enum members `OPENAI` and
`HUGGINGFACE`.  `other` models any further dynamically-typed value that the
Python attribute `self.modeltype` could hold, the possibility anticipated by
the final `raise ValueError("Model type not supported")` branch of
`VectorStore.get_embeddings`. -/
inductive MT where
  | openai
  | huggingface
  | other
deriving Repr, DecidableEq

/-- The langchain `FAISS` wrapper object: the parallel containers of chunk
texts and per-chunk metadata, plus the optionally attached backend index,
abstracted by its vector count.  `index = none` models Python
`store.index is None` (the state `VectorStore.save` leaves behind). -/
structure FAISSStore where
  texts : List Text
  metadatas : List Source
  index : Option Nat
deriving Repr, DecidableEq

/-- The on-disk artifacts under the configured cache directory:
`storeFile` is the pickle at `store_path`, `indexFile` the serialized
backend index at `index_path` (`none` = file does not exist). -/
structure FS where
  storeFile : Option FAISSStore
  indexFile : Option Nat
deriving Repr, DecidableEq

/-- The `VectorStore.__init__` state (vectorstore.py lines 31-43): the settings
copied onto the object, the `initialized` flag, the batch size
`self.stepsize = 100`, and the `store` attribute, which Python does not
create until `init_store`/`load` assigns it (`none` = attribute absent).
The `cache`/`store_path`/`index_path` fields are fixed per run and are
represented by the two `FS` slots they address. -/
structure VectorStore where
  chunkSize : Nat
  separator : Text
  modeltype : MT
  initialized : Bool
  stepsize : Nat
  store : Option FAISSStore
deriving Repr, DecidableEq

/-- The relevant fields of `settings.py` `VectorStoreSettings`. -/
structure VectorStoreSettings where
  chunk_size : Nat
  separator : Text
  modeltype : MT
deriving Repr, DecidableEq

/-- Model of `VectorStore.__init__`: copies the settings, sets
`self.initialized = False` and `self.stepsize = 100`; performs no
model-type validation and creates no `store` attribute. -/
def mkVectorStore (st : VectorStoreSettings) : VectorStore :=
  { chunkSize := st.chunk_size
    separator := st.separator
    modeltype := st.modeltype
    initialized := false
    stepsize := 100
    store := none }

/-- The full mutable state of an execution: the `VectorStore` object, the
filesystem, the number of embedding-provider batch calls made so far, and
the accumulated log (oldest first). -/
structure Sys where
  vs : VectorStore
  fs : FS
  calls : Nat
  log : List LogMsg
deriving Repr, DecidableEq

/-- Outcome of the k-th embedding-provider batch call of an execution:
`none` = success, `some e` = the provider raised `e`. -/
abbrev Oracle := Nat → Option ProviderErr

def Sys.pushLog (s : Sys) (m : LogMsg) : Sys := { s with log := s.log ++ [m] }

def Sys.setStore (s : Sys) (st : FAISSStore) : Sys :=
  { s with vs := { s.vs with store := some st } }

def Sys.setInitialized (s : Sys) (b : Bool) : Sys :=
  { s with vs := { s.vs with initialized := b } }

/-- One blocking call to the embedding provider for a batch of texts. -/
def embedCall (oracle : Oracle) (s : Sys) : Sys × Option ProviderErr :=
  ({ s with calls := s.calls + 1 }, oracle s.calls)

/-- Model of `VectorStore.get_embeddings` (vectorstore.py lines 133-154):
dispatches on `self.modeltype` (`HUGGINGFACE` first, then `OPENAI`), else
raises `ValueError("Model type not supported")`.  Constructing the provider
object performs no provider call, so only the dispatch outcome matters. -/
def get_embeddings (vs : VectorStore) : Option Err :=
  match vs.modeltype with
  | .huggingface => none
  | .openai => none
  | .other => some .modelTypeNotSupported

/-- Model of `FAISS.from_texts(texts, embedding, metadatas)`: embeds the given
batch with one provider call and, on success, builds a fresh wrapper whose
vector count equals the number of texts. -/
def fromTexts (oracle : Oracle) (s : Sys) (texts : List Text)
    (metas : List Source) : Sys × Except Err FAISSStore :=
  let (s₁, r) := embedCall oracle s
  match r with
  | some e => (s₁, .error (.providerFailure e))
  | none => (s₁, .ok { texts := texts, metadatas := metas, index := some texts.length })

/-- Model of `FAISS.add_texts(texts, metadatas)` on wrapper `st`: embeds the batch
with one provider call, then appends texts, metadatas and vectors to the
wrapper's parallel containers (raising if the backend index is detached). -/
def faissAddTexts (oracle : Oracle) (s : Sys) (st : FAISSStore)
    (texts : List Text) (metas : List Source) : Sys × Except Err FAISSStore :=
  let (s₁, r) := embedCall oracle s
  match r with
  | some e => (s₁, .error (.providerFailure e))
  | none =>
    match st.index with
    | none => (s₁, .error .indexDetached)
    | some c =>
      (s₁, .ok { texts := st.texts ++ texts
                 metadatas := st.metadatas ++ metas
                 index := some (c + texts.length) })

/-! ## The pipeline operations (vectorstore.py) -/

/-- The pure content of `VectorStore.chunk_datastore` (lines 74-94): the
loop `for doc in datastore` extends `docs` with `split_text(doc.text)` and
`metadatas` with `[{"source": doc.source}] * len(splits)`. -/
def chunk_datastore_chunk (chunkSize : Nat) (sep : Text) (ds : DataStore) : ChunkT :=
  ds.foldl
    (fun ch doc =>
      let splits := splitText chunkSize sep doc.text
      { docs := ch.docs ++ splits
        metadatas := ch.metadatas ++ List.replicate splits.length doc.source })
    ⟨[], []⟩

/-- Model of `VectorStore.chunk_datastore` with its two log lines (before and after
the loop). -/
def chunk_datastore (s : Sys) (ds : DataStore) : Sys × ChunkT :=
  let ch := chunk_datastore_chunk s.vs.chunkSize s.vs.separator ds
  (((s.pushLog (.buildingFrom ds.length)).pushLog (.processedInto ch.docs.length)), ch)

/-- Model of `VectorStore.init_store` (lines 96-111): if `self.initialized`, only a
warning is logged; otherwise the embeddings object is resolved and
`FAISS.from_texts` is called on the first `stepsize` chunks.  The trailing
`self.initialized = True` (line 111) sits outside the `if`/`else` and runs
in both branches, but is skipped when an exception propagates. -/
def init_store (oracle : Oracle) (s : Sys) (ch : ChunkT) : Sys × Option Err :=
  if s.vs.initialized then
    ((s.pushLog .alreadyInitialized).setInitialized true, none)
  else
    match get_embeddings s.vs with
    | some e => (s, some e)
    | none =>
      let (s₁, r) := fromTexts oracle s (ch.docs.take s.vs.stepsize)
        (ch.metadatas.take s.vs.stepsize)
      match r with
      | .error e => (s₁, some e)
      | .ok st => ((s₁.setStore st).setInitialized true, none)

/-- The body of the loop `for i in range(start, n_docs, stepsize)` of
`VectorStore.add_chunks` (lines 124-130), iterated over the materialized
index sequence: logs the range, then calls `self.store.add_texts` on the
slices `[i : i+stepsize]`.  An exception aborts the remaining iterations. -/
def addLoop (oracle : Oracle) (ch : ChunkT) (n step : Nat) :
    List Nat → Sys → Sys × Option Err
  | [], s => (s, none)
  | i :: is, s =>
    let s₁ := s.pushLog (.addingRange i (i + step) n)
    match s₁.vs.store with
    | none => (s₁, some .storeAttrMissing)
    | some st =>
      let (s₂, r) := faissAddTexts oracle s₁ st ((ch.docs.drop i).take step)
        ((ch.metadatas.drop i).take step)
      match r with
      | .error e => (s₂, some e)
      | .ok st' => addLoop oracle ch n step is (s₂.setStore st')

/-- Model of `VectorStore.add_chunks` (lines 113-130): resolves the embeddings
object (line 122), computes `n_docs` and runs the batch loop from `start`.
For `step > 0`, Python's `range(start, n, step)` enumerates exactly
`List.range' start ((n - start + step - 1) / step) step`; `range` with step
`0` raises `ValueError`. -/
def add_chunks (oracle : Oracle) (s : Sys) (ch : ChunkT) (start : Nat) :
    Sys × Option Err :=
  match get_embeddings s.vs with
  | some e => (s, some e)
  | none =>
    let n := ch.docs.length
    match s.vs.stepsize with
    | 0 => (s, some .rangeStepZero)
    | step + 1 =>
      addLoop oracle ch n (step + 1)
        (List.range' start ((n - start + step) / (step + 1)) (step + 1)) s

/-- Model of `VectorStore.create_store` (lines 45-58): chunk, log, `init_store`,
then `add_chunks(chunked, self.stepsize)`, then success log and
`self.initialized = True`. -/
def create_store (oracle : Oracle) (s : Sys) (ds : DataStore) : Sys × Option Err :=
  let (s₁, ch) := chunk_datastore s ds
  let s₂ := s₁.pushLog (.initializingFirst s₁.vs.stepsize)
  match init_store oracle s₂ ch with
  | (s₃, some e) => (s₃, some e)
  | (s₃, none) =>
    match add_chunks oracle s₃ ch s₃.vs.stepsize with
    | (s₄, some e) => (s₄, some e)
    | (s₄, none) => ((s₄.pushLog .initializedStore).setInitialized true, none)

/-- Model of `VectorStore.save` (lines 159-165): `faiss.write_index(self.store.index,
index_path)` (a `TypeError` if the index is detached), then
`self.store.index = None`, then pickle the wrapper to `store_path`.  The
index is never reattached afterwards. -/
def save (s : Sys) : Sys × Option Err :=
  match s.vs.store with
  | none => (s, some .storeAttrMissing)
  | some st =>
    match st.index with
    | none => (s, some .writeIndexTypeError)
    | some idx =>
      let s₁ := { s with fs := { s.fs with indexFile := some idx } }
      let st' := { st with index := none }
      let s₂ := s₁.setStore st'
      let s₃ := { s₂ with fs := { s₂.fs with storeFile := some st' } }
      (s₃.pushLog .savedStore, none)

/-- Model of `VectorStore.load` (lines 167-180): if `store_path` does not exist, two
log lines are emitted (including the instruction to run `.create_store`
first) but control continues; `faiss.read_index(index_path)` then raises on
a missing index file; otherwise the pickled wrapper is loaded, its index
reattached and `self.initialized = True` set. -/
def load (s : Sys) : Sys × Option Err :=
  let s₁ :=
    match s.fs.storeFile with
    | none => (s.pushLog .storeNotFoundCreateFirst).pushLog .abortingNoStore
    | some _ => s
  let s₂ := s₁.pushLog .loadingFrom
  match s₂.fs.indexFile with
  | none => (s₂, some .indexFileMissing)
  | some idx =>
    match s₂.fs.storeFile with
    | none => (s₂, some .storeFileMissing)
    | some st =>
      (((s₂.setStore { st with index := some idx }).setInitialized true), none)

/-- The part of `VectorStore.extend_store` after the implicit load (lines
70-72): chunk the datastore, `add_chunks(chunked, 0)`, success log. -/
def extend_body (oracle : Oracle) (s : Sys) (ds : DataStore) : Sys × Option Err :=
  let (s₁, ch) := chunk_datastore s ds
  match add_chunks oracle s₁ ch 0 with
  | (s₂, some e) => (s₂, some e)
  | (s₂, none) => (s₂.pushLog .extendedStore, none)

/-- Model of `VectorStore.extend_store` (lines 60-72): `if not self.initialized:
self.load(self.store_path)` (an exception there propagates), then the
extend body. -/
def extend_store (oracle : Oracle) (s : Sys) (ds : DataStore) : Sys × Option Err :=
  if s.vs.initialized then extend_body oracle s ds
  else
    match load s with
    | (s₁, some e) => (s₁, some e)
    | (s₁, none) => extend_body oracle s₁ ds

/-! ## The loader (dataloader.py) -/

/-- One file yielded by `DataLoader.walk_dir`, with its lower-cased
extension and the `Document` that `self.parser(source, ftype)` produces for
it (per-format parsing is external I/O, a black box producing `(text,
source)` pairs per spec §1). -/
structure FileEntry where
  ext : String
  doc : Document
deriving Repr, DecidableEq

/-- The observable outcome of `DataLoader.load_files`: the datastore
contents plus the two counters reported in the closing count-level log
lines (`num_docs` added, `num_skipped` skipped). -/
structure LoadResult where
  datastore : List Document
  numDocs : Nat
  numSkipped : Nat
deriving Repr, DecidableEq

/-- The loop of `DataLoader.load_files` (dataloader.py lines 141-153):
skip files whose extension matches no configured filetype; otherwise parse,
and add the parsed document to the datastore only when
`len(document.text) > 0`. -/
def load_files_loop (filetypes : List String) :
    List FileEntry → List Document → Nat → Nat → LoadResult
  | [], ds, nd, ns => ⟨ds, nd, ns⟩
  | f :: fs, ds, nd, ns =>
    if filetypes.contains f.ext then
      if f.doc.text.length > 0 then
        load_files_loop filetypes fs (ds ++ [f.doc]) (nd + 1) ns
      else
        load_files_loop filetypes fs ds nd ns
    else
      load_files_loop filetypes fs ds nd (ns + 1)

/-- Model of `DataLoader.load_files` over the files found by the walk, starting from
the current datastore contents. -/
def load_files (filetypes : List String) (files : List FileEntry)
    (prior : List Document) : LoadResult :=
  load_files_loop filetypes files prior 0 0

/-! ## Characterization of chunking -/

/-- Unfolding `chunk_datastore_chunk`: the chunk-text list is the ordered
concatenation of each document's splits, and the metadata list the ordered
concatenation of each document's source, repeated once per split. -/
theorem chunk_datastore_chunk_eq (chunkSize : Nat) (sep : Text) (ds : DataStore) :
    chunk_datastore_chunk chunkSize sep ds =
      { docs := ds.flatMap (fun d => splitText chunkSize sep d.text)
        metadatas := ds.flatMap (fun d =>
          List.replicate (splitText chunkSize sep d.text).length d.source) } := by
  suffices h : ∀ acc : ChunkT,
      ds.foldl
        (fun ch doc =>
          let splits := splitText chunkSize sep doc.text
          { docs := ch.docs ++ splits
            metadatas := ch.metadatas ++ List.replicate splits.length doc.source })
        acc =
      { docs := acc.docs ++ ds.flatMap (fun d => splitText chunkSize sep d.text)
        metadatas := acc.metadatas ++ ds.flatMap (fun d =>
          List.replicate (splitText chunkSize sep d.text).length d.source) } by
    rw [chunk_datastore_chunk, h ⟨[], []⟩]
    simp
  induction ds with
  | nil => intro acc; simp
  | cons d ds ih =>
    intro acc
    simp only [List.foldl_cons, ih, List.flatMap_cons, List.append_assoc]

/-- The chunk-text and metadata lists produced by `chunk_datastore` always
have the same length. -/
theorem chunk_datastore_chunk_length (chunkSize : Nat) (sep : Text) (ds : DataStore) :
    (chunk_datastore_chunk chunkSize sep ds).docs.length =
      (chunk_datastore_chunk chunkSize sep ds).metadatas.length := by
  rw [chunk_datastore_chunk_eq]
  induction ds with
  | nil => simp
  | cons d ds ih => simp [List.flatMap_cons, ih]

/-- Zipping a list with the constant list of its own length pairs every
element with that constant. -/
theorem zip_replicate_self {α β : Type} (l : List α) (b : β) :
    l.zip (List.replicate l.length b) = l.map (fun x => (x, b)) := by
  induction l with
  | nil => simp
  | cons x xs ih => simp [List.replicate_succ, ih]

/-- Positional correspondence: the i-th metadata entry is the source of the
document whose split produced the i-th chunk text, stated as an equality of
the zipped chunk/metadata list with the per-document pairing. -/
theorem chunk_datastore_chunk_zip (chunkSize : Nat) (sep : Text) (ds : DataStore) :
    (chunk_datastore_chunk chunkSize sep ds).docs.zip
        (chunk_datastore_chunk chunkSize sep ds).metadatas =
      ds.flatMap (fun d => (splitText chunkSize sep d.text).map (fun t => (t, d.source))) := by
  rw [chunk_datastore_chunk_eq]
  induction ds with
  | nil => simp
  | cons d ds ih =>
    simp only [List.flatMap_cons]
    rw [List.zip_append (by simp), ih, zip_replicate_self]

/-! ## Lockstep preservation -/

/-- The in-memory wrapper, if present, keeps its chunk-text and metadata
containers at equal length. -/
def lockstepVS (vs : VectorStore) : Prop :=
  ∀ st, vs.store = some st → st.texts.length = st.metadatas.length

/-- A chunk whose two lists have equal length. -/
def lockstepCh (ch : ChunkT) : Prop := ch.docs.length = ch.metadatas.length

theorem addLoop_lockstep (oracle : Oracle) (ch : ChunkT) (n step : Nat)
    (hch : lockstepCh ch) :
    ∀ (is : List Nat) (s : Sys), lockstepVS s.vs →
      lockstepVS (addLoop oracle ch n step is s).1.vs
  | [], s, hs => hs
  | i :: is, s, hs => by
    simp only [addLoop]
    rcases hstore : (s.pushLog (.addingRange i (i + step) n)).vs.store with - | st
    · simpa [Sys.pushLog] using hs
    · have hst : s.vs.store = some st := by simpa [Sys.pushLog] using hstore
      simp only [faissAddTexts, embedCall]
      rcases oracle (s.pushLog (.addingRange i (i + step) n)).calls with - | e
      · rcases hidx : st.index with - | c
        · simpa [Sys.pushLog] using hs
        · simp only []
          apply addLoop_lockstep oracle ch n step hch is
          intro st' h
          simp only [Sys.setStore, Sys.pushLog] at h
          cases h
          have h1 := hs st hst
          have h2 : ch.docs.length = ch.metadatas.length := hch
          simp [List.length_take, List.length_drop, h1, h2]
      · simpa [Sys.pushLog] using hs

theorem add_chunks_lockstep (oracle : Oracle) (s : Sys) (ch : ChunkT)
    (start : Nat) (hch : lockstepCh ch) (hs : lockstepVS s.vs) :
    lockstepVS (add_chunks oracle s ch start).1.vs := by
  unfold add_chunks
  rcases get_embeddings s.vs with - | e
  · rcases s.vs.stepsize with - | step
    · exact hs
    · exact addLoop_lockstep oracle ch ch.docs.length (step + 1) hch _ s hs
  · exact hs

theorem init_store_lockstep (oracle : Oracle) (s : Sys) (ch : ChunkT)
    (hch : lockstepCh ch) (hs : lockstepVS s.vs) :
    lockstepVS (init_store oracle s ch).1.vs := by
  unfold init_store
  by_cases hinit : s.vs.initialized
  · simpa [hinit, Sys.pushLog, Sys.setInitialized, lockstepVS] using hs
  · simp only [hinit, if_false, Bool.false_eq_true]
    rcases get_embeddings s.vs with - | e
    · simp only [fromTexts, embedCall]
      rcases oracle s.calls with - | e
      · intro st h
        simp only [Sys.setStore, Sys.setInitialized] at h
        cases h
        have h2 : ch.docs.length = ch.metadatas.length := hch
        simp [List.length_take, h2]
      · exact hs
    · exact hs

theorem chunk_datastore_lockstep (s : Sys) (ds : DataStore) :
    lockstepCh (chunk_datastore s ds).2 := by
  unfold chunk_datastore lockstepCh
  exact chunk_datastore_chunk_length _ _ _

theorem create_store_lockstep (oracle : Oracle) (s : Sys) (ds : DataStore)
    (hs : lockstepVS s.vs) : lockstepVS (create_store oracle s ds).1.vs := by
  have hcd := chunk_datastore_lockstep s ds
  unfold create_store
  rcases hpair : chunk_datastore s ds with ⟨s₁, ch⟩
  rw [hpair] at hcd
  dsimp only
  have hch : lockstepCh ch := hcd
  have h2 : lockstepVS (s₁.pushLog (.initializingFirst s₁.vs.stepsize)).vs := by
    have hvs : s₁.vs = s.vs := by
      have := congrArg (fun p => p.1.vs) hpair
      simpa [chunk_datastore, Sys.pushLog] using this.symm
    intro st h
    exact hs st (by rw [← hvs]; simpa [Sys.pushLog] using h)
  have h3 := init_store_lockstep oracle _ _ hch h2
  split
  next s₃ e heq =>
    rw [heq] at h3
    exact h3
  next s₃ heq =>
    have h3' : lockstepVS s₃.vs := by rw [heq] at h3; exact h3
    have h4 := add_chunks_lockstep oracle s₃ ch s₃.vs.stepsize hch h3'
    split
    next s₄ e heq2 =>
      rw [heq2] at h4
      exact h4
    next s₄ heq2 =>
      have h4' : lockstepVS s₄.vs := by rw [heq2] at h4; exact h4
      intro st h
      exact h4' st (by simpa [Sys.pushLog, Sys.setInitialized] using h)

theorem extend_body_lockstep (oracle : Oracle) (s : Sys) (ds : DataStore)
    (hs : lockstepVS s.vs) : lockstepVS (extend_body oracle s ds).1.vs := by
  have hcd := chunk_datastore_lockstep s ds
  unfold extend_body
  rcases hpair : chunk_datastore s ds with ⟨s₁, ch⟩
  rw [hpair] at hcd
  dsimp only
  have hch : lockstepCh ch := hcd
  have h2 : lockstepVS s₁.vs := by
    have hvs : s₁.vs = s.vs := by
      have := congrArg (fun p => p.1.vs) hpair
      simpa [chunk_datastore, Sys.pushLog] using this.symm
    rw [hvs]
    exact hs
  have h3 := add_chunks_lockstep oracle s₁ ch 0 hch h2
  split
  next s₂ e heq =>
    rw [heq] at h3
    exact h3
  next s₂ heq =>
    have h3' : lockstepVS s₂.vs := by rw [heq] at h3; exact h3
    intro st h
    exact h3' st (by simpa [Sys.pushLog] using h)

/-- Applying `extend_store` on an initialized store preserves lockstep. -/
theorem extend_store_lockstep (oracle : Oracle) (s : Sys) (ds : DataStore)
    (hinit : s.vs.initialized = true) (hs : lockstepVS s.vs) :
    lockstepVS (extend_store oracle s ds).1.vs := by
  unfold extend_store
  rw [hinit]
  simpa using extend_body_lockstep oracle s ds hs

/-! ## The successful batch loop -/

/-- Running the batch loop with an always-successful provider over the
index sequence of `range(start, n, step)`, provided the iterations cover
the chunks from `start` on, appends exactly those chunks, in order, to the
wrapper: batch boundaries leave no other trace in the store. -/
theorem addLoop_range'_ok (oracle : Oracle) (horacle : ∀ k, oracle k = none)
    (ch : ChunkT) (n step : Nat) (hn : n = ch.docs.length)
    (hm : ch.metadatas.length = ch.docs.length) :
    ∀ (cnt start : Nat) (s : Sys) (st : FAISSStore) (c : Nat),
      s.vs.store = some st → st.index = some c → n ≤ start + cnt * step →
      ∃ (k : Nat) (L : List LogMsg),
        addLoop oracle ch n step (List.range' start cnt step) s =
          ({ s with
              vs := { s.vs with store := some ⟨st.texts ++ ch.docs.drop start,
                st.metadatas ++ ch.metadatas.drop start, some (c + (n - start))⟩ }
              calls := k
              log := s.log ++ L }, none) := by
  intro cnt
  induction cnt with
  | zero =>
    intro start s st c hstore hidx hcov
    refine ⟨s.calls, [], ?_⟩
    have h1 : ch.docs.drop start = [] := List.drop_eq_nil_of_le (by omega)
    have h2 : ch.metadatas.drop start = [] := List.drop_eq_nil_of_le (by omega)
    have h3 : n - start = 0 := by omega
    simp only [List.range'_zero, addLoop, h1, h2, h3, List.append_nil, Nat.add_zero]
    rcases s with ⟨⟨a1, a2, a3, a4, a5, vstore⟩, sfs, scalls, slog⟩
    simp only at hstore
    rw [hstore, ← hidx]
  | succ cnt ih =>
    intro start s st c hstore hidx hcov
    rw [List.range'_succ]
    simp only [addLoop, Sys.pushLog, faissAddTexts, embedCall, horacle, hidx]
    rw [show ({ s with log := s.log ++ [LogMsg.addingRange start (start + step) n] } : Sys).vs.store = some st from hstore]
    simp only [hidx]
    obtain ⟨k, L, hrec⟩ := ih (start + step)
      (Sys.setStore { s with
          log := s.log ++ [LogMsg.addingRange start (start + step) n]
          calls := s.calls + 1 }
        ⟨st.texts ++ (ch.docs.drop start).take step,
          st.metadatas ++ (ch.metadatas.drop start).take step,
          some (c + ((ch.docs.drop start).take step).length)⟩)
      ⟨st.texts ++ (ch.docs.drop start).take step,
        st.metadatas ++ (ch.metadatas.drop start).take step,
        some (c + ((ch.docs.drop start).take step).length)⟩
      (c + ((ch.docs.drop start).take step).length) rfl rfl
      (by rw [Nat.succ_mul] at hcov; omega)
    rw [hrec]
    refine ⟨k, LogMsg.addingRange start (start + step) n :: L, ?_⟩
    have hdocs : (ch.docs.drop start).take step ++ ch.docs.drop (start + step) =
        ch.docs.drop start := by
      rw [← List.drop_drop]
      exact List.take_append_drop step (ch.docs.drop start)
    have hmetas : (ch.metadatas.drop start).take step ++ ch.metadatas.drop (start + step) =
        ch.metadatas.drop start := by
      rw [← List.drop_drop]
      exact List.take_append_drop step (ch.metadatas.drop start)
    have hlen : ((ch.docs.drop start).take step).length = min step (n - start) := by
      simp [List.length_take, List.length_drop, hn]
    have hcount : c + ((ch.docs.drop start).take step).length + (n - (start + step)) =
        c + (n - start) := by
      rw [hlen]
      omega
    simp only [Sys.setStore]
    simp [List.append_assoc, hdocs, hmetas, hcount]
    omega

/-- The iteration count Python's `range` materializes for a positive step
covers the whole remaining length. -/
theorem ceil_div_covers (a step : Nat) :
    a ≤ ((a + step) / (step + 1)) * (step + 1) := by
  have hdm := Nat.div_add_mod (a + step) (step + 1)
  have hr : (a + step) % (step + 1) ≤ step :=
    Nat.lt_succ_iff.mp (Nat.mod_lt _ (Nat.succ_pos step))
  rw [Nat.mul_comm]
  omega

/-- Running `add_chunks` with an always-successful provider appends exactly the
chunks from `start` on, in order. -/
theorem add_chunks_ok (oracle : Oracle) (horacle : ∀ k, oracle k = none)
    (s : Sys) (ch : ChunkT) (start : Nat) (st : FAISSStore) (c : Nat)
    (hmt : s.vs.modeltype ≠ .other) (hstep : 0 < s.vs.stepsize)
    (hstore : s.vs.store = some st) (hidx : st.index = some c)
    (hm : ch.metadatas.length = ch.docs.length) :
    ∃ (k : Nat) (L : List LogMsg),
      add_chunks oracle s ch start =
        ({ s with
            vs := { s.vs with store := some ⟨st.texts ++ ch.docs.drop start,
              st.metadatas ++ ch.metadatas.drop start,
              some (c + (ch.docs.length - start))⟩ }
            calls := k
            log := s.log ++ L }, none) := by
  obtain ⟨step, hstep'⟩ : ∃ k, s.vs.stepsize = k + 1 := ⟨s.vs.stepsize - 1, by omega⟩
  have hge : get_embeddings s.vs = none := by
    unfold get_embeddings
    cases hmt' : s.vs.modeltype with
    | openai => rfl
    | huggingface => rfl
    | other => exact absurd hmt' hmt
  have hcov : ch.docs.length ≤
      start + ((ch.docs.length - start + step) / (step + 1)) * (step + 1) := by
    have h1 := ceil_div_covers (ch.docs.length - start) step
    omega
  obtain ⟨k, L, h⟩ := addLoop_range'_ok oracle horacle ch ch.docs.length (step + 1) rfl hm
    ((ch.docs.length - start + step) / (step + 1)) start s st c hstore hidx hcov
  refine ⟨k, L, ?_⟩
  simp only [add_chunks, hge, hstep']
  rw [h]
  simp [hstep']

/-- Running `create_store` with an always-successful provider on an uninitialized
`VectorStore` succeeds and leaves the wrapper holding exactly the chunked
texts and metadata, in chunk order, with a matching vector count. -/
theorem create_store_ok (oracle : Oracle) (horacle : ∀ k, oracle k = none)
    (s : Sys) (ds : DataStore)
    (hinit : s.vs.initialized = false) (hstep : 0 < s.vs.stepsize)
    (hmt : s.vs.modeltype ≠ .other) :
    ∃ s' : Sys,
      create_store oracle s ds = (s', none) ∧
      s'.vs.store = some
        ⟨(chunk_datastore_chunk s.vs.chunkSize s.vs.separator ds).docs,
         (chunk_datastore_chunk s.vs.chunkSize s.vs.separator ds).metadatas,
         some (chunk_datastore_chunk s.vs.chunkSize s.vs.separator ds).docs.length⟩ ∧
      s'.vs.initialized = true ∧ s'.fs = s.fs ∧
      s'.vs.chunkSize = s.vs.chunkSize ∧ s'.vs.separator = s.vs.separator ∧
      s'.vs.modeltype = s.vs.modeltype ∧ s'.vs.stepsize = s.vs.stepsize := by
  have hge : get_embeddings s.vs = none := by
    unfold get_embeddings
    cases hmt' : s.vs.modeltype with
    | openai => rfl
    | huggingface => rfl
    | other => exact absurd hmt' hmt
  have hm := (chunk_datastore_chunk_length s.vs.chunkSize s.vs.separator ds).symm
  simp only [create_store, chunk_datastore, Sys.pushLog]
  simp only [init_store, hinit, Bool.false_eq_true, if_false, hge, fromTexts, embedCall,
    horacle, Sys.setStore, Sys.setInitialized]
  set ch := chunk_datastore_chunk s.vs.chunkSize s.vs.separator ds with hch
  obtain ⟨k, L, hrec⟩ := add_chunks_ok oracle horacle
    { s with
        vs := { s.vs with
          store := some ⟨ch.docs.take s.vs.stepsize, ch.metadatas.take s.vs.stepsize,
            some (ch.docs.take s.vs.stepsize).length⟩
          initialized := true }
        calls := s.calls + 1
        log := s.log ++ [LogMsg.buildingFrom ds.length] ++ [LogMsg.processedInto ch.docs.length]
          ++ [LogMsg.initializingFirst s.vs.stepsize] }
    ch s.vs.stepsize
    ⟨ch.docs.take s.vs.stepsize, ch.metadatas.take s.vs.stepsize,
      some (ch.docs.take s.vs.stepsize).length⟩
    (ch.docs.take s.vs.stepsize).length hmt hstep rfl rfl hm
  rw [hrec]
  refine ⟨_, rfl, ?_, rfl, rfl, rfl, rfl, rfl, rfl⟩
  simp only [Sys.pushLog, Sys.setInitialized]
  simp [List.take_append_drop, List.length_take]
  omega

/-! ## The failing batch loop -/

/-- If the failing batch's start index is still below `n`, the loop has at
least `m + 1` iterations. -/
theorem lt_ceil_div (start m step n : Nat) (h : start + m * (step + 1) < n) :
    m < (n - start + step) / (step + 1) := by
  have hdm := Nat.div_add_mod (n - start + step) (step + 1)
  have hr : (n - start + step) % (step + 1) ≤ step :=
    Nat.lt_succ_iff.mp (Nat.mod_lt _ (Nat.succ_pos step))
  rcases Nat.lt_or_ge m ((n - start + step) / (step + 1)) with h1 | h1
  · exact h1
  · exfalso
    have h2 : ((n - start + step) / (step + 1)) * (step + 1) ≤ m * (step + 1) :=
      Nat.mul_le_mul_right _ h1
    rw [Nat.mul_comm ((n - start + step) / (step + 1))] at h2
    rw [Nat.mul_comm m] at h2
    rw [Nat.mul_comm m] at h
    omega

/-- If the provider succeeds on the loop's first `m` batch calls and raises
`e` on call `m`, and the loop still had iterations to run, the loop aborts
with the provider's error surfaced unchanged, the wrapper retains exactly
the chunks of the `m` batches that fully succeeded, and the last log line
emitted names the start index of the failing batch. -/
theorem addLoop_range'_fail (oracle : Oracle) (ch : ChunkT) (n step : Nat)
    (e : ProviderErr) :
    ∀ (m cnt start : Nat) (s : Sys) (st : FAISSStore) (c : Nat),
      (∀ j, j < m → oracle (s.calls + j) = none) →
      oracle (s.calls + m) = some e →
      m < cnt →
      s.vs.store = some st → st.index = some c →
      ∃ (k : Nat) (L : List LogMsg),
        addLoop oracle ch n step (List.range' start cnt step) s =
          ({ s with
              vs := { s.vs with store := some ⟨st.texts ++ (ch.docs.drop start).take (m * step),
                st.metadatas ++ (ch.metadatas.drop start).take (m * step),
                some (c + ((ch.docs.drop start).take (m * step)).length)⟩ }
              calls := k
              log := s.log ++ L }, some (.providerFailure e)) ∧
        L.getLast? = some (.addingRange (start + m * step) (start + m * step + step) n) := by
  intro m
  induction m with
  | zero =>
    intro cnt start s st c hsucc hfail hlt hstore hidx
    obtain ⟨cnt', rfl⟩ : ∃ c', cnt = c' + 1 := ⟨cnt - 1, by omega⟩
    rw [List.range'_succ]
    simp only [addLoop, Sys.pushLog, faissAddTexts, embedCall]
    rw [show oracle s.calls = some e from by simpa using hfail]
    rw [hstore]
    refine ⟨s.calls + 1, [LogMsg.addingRange start (start + step) n], ?_, by simp⟩
    have hst : (⟨st.texts, st.metadatas, some c⟩ : FAISSStore) = st := by rw [← hidx]
    simp
    rw [hst, ← hstore]
  | succ m ih =>
    intro cnt start s st c hsucc hfail hlt hstore hidx
    obtain ⟨cnt', rfl⟩ : ∃ c', cnt = c' + 1 := ⟨cnt - 1, by omega⟩
    rw [List.range'_succ]
    simp only [addLoop, Sys.pushLog, faissAddTexts, embedCall]
    rw [show oracle s.calls = none from by simpa using hsucc 0 (Nat.succ_pos m)]
    rw [hstore]
    simp only [hidx]
    obtain ⟨k, L, hrec, hlast⟩ := ih cnt' (start + step)
      (Sys.setStore { s with
          log := s.log ++ [LogMsg.addingRange start (start + step) n]
          calls := s.calls + 1 }
        ⟨st.texts ++ (ch.docs.drop start).take step,
          st.metadatas ++ (ch.metadatas.drop start).take step,
          some (c + ((ch.docs.drop start).take step).length)⟩)
      ⟨st.texts ++ (ch.docs.drop start).take step,
        st.metadatas ++ (ch.metadatas.drop start).take step,
        some (c + ((ch.docs.drop start).take step).length)⟩
      (c + ((ch.docs.drop start).take step).length)
      (fun j hj => by
        have : s.calls + 1 + j = s.calls + (j + 1) := by omega
        simp only [Sys.setStore, this]
        exact hsucc (j + 1) (by omega))
      (by
        have : s.calls + 1 + m = s.calls + (m + 1) := by omega
        simp only [Sys.setStore, this]
        exact hfail)
      (by omega) rfl rfl
    rw [hrec]
    have hmul : (m + 1) * step = step + m * step := by ring
    have hdd : ch.docs.drop (start + step) = (ch.docs.drop start).drop step :=
      (List.drop_drop step start ch.docs).symm
    have hdm : ch.metadatas.drop (start + step) = (ch.metadatas.drop start).drop step :=
      (List.drop_drop step start ch.metadatas).symm
    have hsplitd : (ch.docs.drop start).take ((m + 1) * step) =
        (ch.docs.drop start).take step ++ ((ch.docs.drop start).drop step).take (m * step) := by
      rw [hmul]
      exact List.take_add _ _ _
    have hsplitm : (ch.metadatas.drop start).take ((m + 1) * step) =
        (ch.metadatas.drop start).take step ++
          ((ch.metadatas.drop start).drop step).take (m * step) := by
      rw [hmul]
      exact List.take_add _ _ _
    refine ⟨k, LogMsg.addingRange start (start + step) n :: L, ?_, ?_⟩
    · simp only [Sys.setStore]
      rw [hdd, hdm, hsplitd, hsplitm]
      simp [List.append_assoc]
      omega
    · obtain ⟨x, xs, rfl⟩ : ∃ x xs, L = x :: xs := by
        cases L with
        | nil => simp at hlast
        | cons x xs => exact ⟨x, xs, rfl⟩
      rw [List.getLast?_cons_cons, hlast]
      have : start + step + m * step = start + (m + 1) * step := by
        rw [hmul]
        omega
      rw [this]

/-- Running `add_chunks` under a provider that fails on its `m`-th batch call
(counting from the state's current call number) surfaces the provider's
error unchanged, while the wrapper retains exactly the chunks of the `m`
batches that fully succeeded; the last log line emitted names the start
index of the failing batch. -/
theorem add_chunks_fail (oracle : Oracle) (s : Sys) (ch : ChunkT) (start m : Nat)
    (e : ProviderErr) (st : FAISSStore) (c : Nat)
    (hmt : s.vs.modeltype ≠ .other)
    (hstore : s.vs.store = some st) (hidx : st.index = some c)
    (hsucc : ∀ j, j < m → oracle (s.calls + j) = none)
    (hfail : oracle (s.calls + m) = some e)
    (hreach : start + m * s.vs.stepsize < ch.docs.length)
    (hstep : 0 < s.vs.stepsize) :
    ∃ (k : Nat) (L : List LogMsg),
      add_chunks oracle s ch start =
        ({ s with
            vs := { s.vs with store := some ⟨st.texts ++ (ch.docs.drop start).take (m * s.vs.stepsize),
              st.metadatas ++ (ch.metadatas.drop start).take (m * s.vs.stepsize),
              some (c + ((ch.docs.drop start).take (m * s.vs.stepsize)).length)⟩ }
            calls := k
            log := s.log ++ L }, some (.providerFailure e)) ∧
      L.getLast? = some (.addingRange (start + m * s.vs.stepsize)
        (start + m * s.vs.stepsize + s.vs.stepsize) ch.docs.length) := by
  obtain ⟨step, hstep'⟩ : ∃ k, s.vs.stepsize = k + 1 := ⟨s.vs.stepsize - 1, by omega⟩
  have hge : get_embeddings s.vs = none := by
    unfold get_embeddings
    cases hmt' : s.vs.modeltype with
    | openai => rfl
    | huggingface => rfl
    | other => exact absurd hmt' hmt
  rw [hstep'] at hreach
  have hlt : m < (ch.docs.length - start + step) / (step + 1) :=
    lt_ceil_div start m step ch.docs.length hreach
  obtain ⟨k, L, hrec, hlast⟩ := addLoop_range'_fail oracle ch ch.docs.length (step + 1) e
    m ((ch.docs.length - start + step) / (step + 1)) start s st c hsucc hfail hlt hstore hidx
  refine ⟨k, L, ?_, by rw [hstep']; exact hlast⟩
  simp only [add_chunks, hge, hstep']
  rw [hrec]
  simp [hstep']

/-! ## Performing a second `create_store` on an initialized store -/

/-- A `create_store` call on an already-initialized store does not fail: it
logs a warning, skips re-initialization, and then still runs
`add_chunks(chunked, stepsize)`, appending every chunk of the new datastore
beyond index `stepsize` to the existing wrapper. -/
theorem create_store_on_initialized (oracle : Oracle) (horacle : ∀ k, oracle k = none)
    (s : Sys) (ds : DataStore) (st : FAISSStore) (c : Nat)
    (hinit : s.vs.initialized = true) (hstep : 0 < s.vs.stepsize)
    (hmt : s.vs.modeltype ≠ .other)
    (hstore : s.vs.store = some st) (hidx : st.index = some c) :
    ∃ s' : Sys,
      create_store oracle s ds = (s', none) ∧
      s'.vs.store = some
        ⟨st.texts ++ (chunk_datastore_chunk s.vs.chunkSize s.vs.separator ds).docs.drop s.vs.stepsize,
         st.metadatas ++ (chunk_datastore_chunk s.vs.chunkSize s.vs.separator ds).metadatas.drop s.vs.stepsize,
         some (c + ((chunk_datastore_chunk s.vs.chunkSize s.vs.separator ds).docs.length - s.vs.stepsize))⟩ ∧
      s'.fs = s.fs := by
  have hm := (chunk_datastore_chunk_length s.vs.chunkSize s.vs.separator ds).symm
  simp only [create_store, chunk_datastore, Sys.pushLog]
  simp only [init_store, hinit, if_true, Sys.pushLog, Sys.setInitialized]
  set ch := chunk_datastore_chunk s.vs.chunkSize s.vs.separator ds with hch
  obtain ⟨k, L, hrec⟩ := add_chunks_ok oracle horacle
    { s with
        vs := { s.vs with initialized := true }
        log := s.log ++ [LogMsg.buildingFrom ds.length] ++ [LogMsg.processedInto ch.docs.length]
          ++ [LogMsg.initializingFirst s.vs.stepsize] ++ [LogMsg.alreadyInitialized] }
    ch s.vs.stepsize st c hmt hstep hstore hidx hm
  rw [hrec]
  exact ⟨_, rfl, rfl, rfl⟩

/-! ## Concrete demonstration values -/

/-- The settings `main.py` effectively builds (`chunk_size` default 1500,
separator `"\n"`, `modeltype = ModelType.OPENAI`). -/
def demoSettings : VectorStoreSettings := ⟨1500, ['\n'], .openai⟩

/-- A fresh run: newly constructed `VectorStore`, empty cache directory,
no provider calls made, empty log. -/
def demoSys : Sys := ⟨mkVectorStore demoSettings, ⟨none, none⟩, 0, []⟩

/-- A provider that succeeds on every batch call. -/
def okOracle : Oracle := fun _ => none

/-- A provider whose first batch call raises. -/
def failAt0 : Oracle := fun k => if k = 0 then some ("boom") else none

/-- A provider whose second batch call raises. -/
def failAt1 : Oracle := fun k => if k = 1 then some ("boom") else none

/-- A one-character markdown document. -/
def demoDoc : Document := ⟨['a'], "f1.md"⟩

/-- The single-document chunking underlying the demonstration runs. -/
theorem demo_split : splitText 1500 ['\n'] ['a'] = [['a']] :=
  splitText_no_occurrence 1500 ['\n'] ['a'] (by decide)

/-- Chunking the demonstration datastore yields one chunk. -/
theorem demo_chunk :
    chunk_datastore_chunk 1500 ['\n'] [demoDoc] = ⟨[['a']], ["f1.md"]⟩ := by
  rw [chunk_datastore_chunk_eq]
  simp [demoDoc, demo_split]

/-- A datastore of `n` copies of a document whose text forms a single chunk
chunks to `n` identical chunks. -/
theorem chunk_datastore_chunk_replicate (chunkSize : Nat) (sep : Text) (n : Nat)
    (d : Document) (h : splitText chunkSize sep d.text = [d.text]) :
    chunk_datastore_chunk chunkSize sep (List.replicate n d) =
      ⟨List.replicate n d.text, List.replicate n d.source⟩ := by
  rw [chunk_datastore_chunk_eq]
  induction n with
  | zero => simp
  | succ n ih =>
    simp only [List.replicate_succ, List.flatMap_cons, h]
    simp only [chunk_datastore_chunk_eq, ChunkT.mk.injEq] at ih
    simp [ih.1, ih.2, List.replicate_succ]

/-- A provider failing on its second call of a `create_store` run — the
first `add_chunks` batch — leaves exactly the first `stepsize` chunks (the
`init_store` batch) committed, and surfaces the provider error unchanged. -/
theorem create_store_fail_second_call (oracle : Oracle) (s : Sys) (ds : DataStore)
    (e : ProviderErr)
    (h0 : oracle s.calls = none) (h1 : oracle (s.calls + 1) = some e)
    (hinit : s.vs.initialized = false) (hstep : 0 < s.vs.stepsize)
    (hmt : s.vs.modeltype ≠ .other)
    (hreach : s.vs.stepsize <
      (chunk_datastore_chunk s.vs.chunkSize s.vs.separator ds).docs.length) :
    ∃ s' : Sys,
      create_store oracle s ds = (s', some (Err.providerFailure e)) ∧
      s'.vs.store = some
        ⟨(chunk_datastore_chunk s.vs.chunkSize s.vs.separator ds).docs.take s.vs.stepsize,
         (chunk_datastore_chunk s.vs.chunkSize s.vs.separator ds).metadatas.take s.vs.stepsize,
         some ((chunk_datastore_chunk s.vs.chunkSize s.vs.separator ds).docs.take
            s.vs.stepsize).length⟩ := by
  have hge : get_embeddings s.vs = none := by
    unfold get_embeddings
    cases hmt' : s.vs.modeltype with
    | openai => rfl
    | huggingface => rfl
    | other => exact absurd hmt' hmt
  simp only [create_store, chunk_datastore, Sys.pushLog]
  simp only [init_store, hinit, Bool.false_eq_true, if_false, hge, fromTexts, embedCall,
    h0, Sys.setStore, Sys.setInitialized]
  set ch := chunk_datastore_chunk s.vs.chunkSize s.vs.separator ds with hch
  obtain ⟨k, L, hrec, -⟩ := add_chunks_fail oracle
    { s with
        vs := { s.vs with
          store := some ⟨ch.docs.take s.vs.stepsize, ch.metadatas.take s.vs.stepsize,
            some (ch.docs.take s.vs.stepsize).length⟩
          initialized := true }
        calls := s.calls + 1
        log := s.log ++ [LogMsg.buildingFrom ds.length] ++ [LogMsg.processedInto ch.docs.length]
          ++ [LogMsg.initializingFirst s.vs.stepsize] }
    ch s.vs.stepsize 0 e
    ⟨ch.docs.take s.vs.stepsize, ch.metadatas.take s.vs.stepsize,
      some (ch.docs.take s.vs.stepsize).length⟩
    (ch.docs.take s.vs.stepsize).length hmt rfl rfl
    (fun j hj => absurd hj (by omega))
    (by simpa using h1)
    (by simpa using hreach) hstep
  rw [hrec]
  refine ⟨_, rfl, ?_⟩
  simp

/-! ## The claims -/

/-- C1: chunking keeps the chunk-text array and the metadata table in
lockstep: `chunk_datastore` returns a `Chunk` whose `docs` and `metadatas`
have equal length; the i-th metadata entry is the source of the `Document`
whose split produced the i-th chunk text (stated via `zip`); and the
equality of lengths of the wrapper's parallel containers is preserved by
`create_store` and by every subsequent `extend_store` call, for any
provider behaviour. -/
theorem C1_chunk_metadata_lockstep (chunkSize : Nat) (sep : Text) (ds : DataStore)
    (oracle : Oracle) (s : Sys) (ds' : DataStore) :
    (chunk_datastore_chunk chunkSize sep ds).docs.length =
      (chunk_datastore_chunk chunkSize sep ds).metadatas.length ∧
    (chunk_datastore_chunk chunkSize sep ds).docs.zip
        (chunk_datastore_chunk chunkSize sep ds).metadatas =
      ds.flatMap (fun d => (splitText chunkSize sep d.text).map (fun t => (t, d.source))) ∧
    (lockstepVS s.vs → lockstepVS (create_store oracle s ds').1.vs) ∧
    (s.vs.initialized = true → lockstepVS s.vs →
      lockstepVS (extend_store oracle s ds').1.vs) :=
  ⟨chunk_datastore_chunk_length chunkSize sep ds,
   chunk_datastore_chunk_zip chunkSize sep ds,
   fun hs => create_store_lockstep oracle s ds' hs,
   fun hinit hs => extend_store_lockstep oracle s ds' hinit hs⟩

/-- Witness for C1 at a concrete input: fresh system, one document. -/
theorem C1_witness :
    (chunk_datastore_chunk 1500 ['\n'] [demoDoc]).docs.length =
      (chunk_datastore_chunk 1500 ['\n'] [demoDoc]).metadatas.length ∧
    lockstepVS (create_store okOracle demoSys [demoDoc]).1.vs :=
  ⟨(C1_chunk_metadata_lockstep 1500 ['\n'] [demoDoc] okOracle demoSys [demoDoc]).1,
   (C1_chunk_metadata_lockstep 1500 ['\n'] [demoDoc] okOracle demoSys [demoDoc]).2.2.1
     (fun st h => by simp [demoSys, mkVectorStore, demoSettings] at h)⟩

/-- C2: batching is observably transparent: with a provider that succeeds,
`create_store` on an uninitialized store succeeds and the final wrapper
holds exactly the chunk list and metadata list, whole and in chunk order
(the first `stepsize` chunks via `init_store`, the rest via `add_chunks`),
for any positive batch size; two runs differing only in batch size produce
identical final store contents. -/
theorem C2_batching_transparent (oracle : Oracle) (s t : Sys) (ds : DataStore)
    (horacle : ∀ k, oracle k = none)
    (hsi : s.vs.initialized = false) (hss : 0 < s.vs.stepsize)
    (hsm : s.vs.modeltype ≠ .other)
    (hti : t.vs.initialized = false) (hts : 0 < t.vs.stepsize)
    (htm : t.vs.modeltype ≠ .other)
    (hcs : t.vs.chunkSize = s.vs.chunkSize) (hsep : t.vs.separator = s.vs.separator) :
    ∃ s' t' : Sys,
      create_store oracle s ds = (s', none) ∧
      create_store oracle t ds = (t', none) ∧
      s'.vs.store = some
        ⟨(chunk_datastore_chunk s.vs.chunkSize s.vs.separator ds).docs,
         (chunk_datastore_chunk s.vs.chunkSize s.vs.separator ds).metadatas,
         some (chunk_datastore_chunk s.vs.chunkSize s.vs.separator ds).docs.length⟩ ∧
      t'.vs.store = s'.vs.store := by
  obtain ⟨s', h1, h2, h3, h4⟩ := create_store_ok oracle horacle s ds hsi hss hsm
  obtain ⟨t', g1, g2, g3, g4⟩ := create_store_ok oracle horacle t ds hti hts htm
  refine ⟨s', t', h1, g1, h2, ?_⟩
  rw [g2, h2, hcs, hsep]

/-- Witness for C2: batch sizes 100 and 1 on the same document set. -/
theorem C2_witness :
    ∃ s' t' : Sys,
      create_store okOracle demoSys [demoDoc] = (s', none) ∧
      create_store okOracle
        ⟨{ mkVectorStore demoSettings with stepsize := 1 }, ⟨none, none⟩, 0, []⟩
        [demoDoc] = (t', none) ∧
      s'.vs.store = some
        ⟨(chunk_datastore_chunk demoSys.vs.chunkSize demoSys.vs.separator [demoDoc]).docs,
         (chunk_datastore_chunk demoSys.vs.chunkSize demoSys.vs.separator [demoDoc]).metadatas,
         some (chunk_datastore_chunk demoSys.vs.chunkSize demoSys.vs.separator
            [demoDoc]).docs.length⟩ ∧
      t'.vs.store = s'.vs.store :=
  C2_batching_transparent okOracle demoSys
    ⟨{ mkVectorStore demoSettings with stepsize := 1 }, ⟨none, none⟩, 0, []⟩
    [demoDoc] (fun _ => rfl) rfl (by decide) (by decide) rfl (by decide) (by decide) rfl rfl

/-- C3: calling `extend_store` with no prior create/load and no persisted
artifacts fails through the implicit-load path with the artifact-missing
error (the spec's `StoreNotFound`, here the `RuntimeError` of
`faiss.read_index` on the missing index artifact), after logging the
message instructing the caller to run `.create_store` first; the
filesystem is untouched and the in-memory `VectorStore` object is left
exactly as it was — no partial store is synthesized. -/
theorem C3_extend_without_artifacts (oracle : Oracle) (s : Sys) (ds : DataStore)
    (hinit : s.vs.initialized = false)
    (hsf : s.fs.storeFile = none) (hif : s.fs.indexFile = none) :
    ∃ s' : Sys,
      extend_store oracle s ds = (s', some Err.indexFileMissing) ∧
      s'.fs = s.fs ∧ s'.vs = s.vs ∧
      LogMsg.storeNotFoundCreateFirst ∈ s'.log := by
  simp only [extend_store, hinit, Bool.false_eq_true, if_false]
  simp only [load, hsf, hif, Sys.pushLog]
  exact ⟨_, rfl, rfl, rfl, by simp⟩

/-- Witness for C3: fresh uninitialized system, empty cache. -/
theorem C3_witness :
    ∃ s' : Sys,
      extend_store okOracle demoSys [demoDoc] = (s', some Err.indexFileMissing) ∧
      s'.fs = demoSys.fs ∧ s'.vs = demoSys.vs ∧
      LogMsg.storeNotFoundCreateFirst ∈ s'.log :=
  C3_extend_without_artifacts okOracle demoSys [demoDoc] rfl rfl rfl

/-- C4 (code bug): the claim says `save` may be called any number of times
with the last call winning.  In the code, `save` writes the index, sets
`self.store.index = None` and never reattaches it, so a second `save`
raises `TypeError` inside `faiss.write_index(None, ...)`: evaluated here on
a store freshly built from one document, the first `save` succeeds and the
second fails with `writeIndexTypeError`. -/
theorem C4_second_save_fails :
    ∃ s₁ : Sys,
      create_store okOracle demoSys [demoDoc] = (s₁, none) ∧
      (save s₁).2 = none ∧
      (save (save s₁).1).2 = some Err.writeIndexTypeError := by
  obtain ⟨s₁, h1, h2, h3, h4⟩ :=
    create_store_ok okOracle (fun _ => rfl) demoSys [demoDoc] rfl (by decide) (by decide)
  refine ⟨s₁, h1, ?_, ?_⟩
  · unfold save
    rw [h2]
  · unfold save
    rw [h2]
    rfl

/-- C5 counterexample: the claim says the reported error includes the exact
count of chunks already committed.  Here are two `create_store` executions
whose surfaced error values are identical — the provider's raw exception,
`providerFailure "boom"` — while the committed-chunk counts differ: the
first fails on the `init_store` batch with nothing committed (the `store`
attribute is never even created), the second fails on the first
`add_chunks` batch with the 100 chunks of the `init_store` batch
committed.  The error therefore cannot encode the committed count. -/
theorem C5_counterexample :
    ∃ (sA sB : Sys) (stB : FAISSStore),
      create_store failAt0 demoSys [demoDoc] = (sA, some (Err.providerFailure ("boom"))) ∧
      sA.vs.store = none ∧
      create_store failAt1 demoSys (List.replicate 101 demoDoc) =
        (sB, some (Err.providerFailure ("boom"))) ∧
      sB.vs.store = some stB ∧ stB.texts.length = 100 := by
  have hrep : chunk_datastore_chunk demoSys.vs.chunkSize demoSys.vs.separator
      (List.replicate 101 demoDoc) =
      ⟨List.replicate 101 ['a'], List.replicate 101 "f1.md"⟩ :=
    chunk_datastore_chunk_replicate _ _ 101 demoDoc demo_split
  obtain ⟨sB, hB1, hB2⟩ := create_store_fail_second_call failAt1 demoSys
    (List.replicate 101 demoDoc) ("boom") rfl rfl rfl (by decide) (by decide)
    (by rw [hrep]; simp; decide)
  refine ⟨_, sB, _, rfl, rfl, hB1, hB2, ?_⟩
  rw [hrep]
  simp
  decide

/-- C5 amended: when an embedding-provider call for one batch fails during
`add_chunks` (the engine shared by create and extend), the call aborts with
the provider's error surfaced unchanged — carrying no committed-chunk
count — the in-memory wrapper retains exactly the chunks of the batches
that fully succeeded before the failure, and the last log line emitted
names the start index of the failing batch (from which the committed count
is recoverable, since only fully-succeeded batches advance the cursor). -/
theorem C5_batch_failure_keeps_committed (oracle : Oracle) (s : Sys)
    (ch : ChunkT) (start m : Nat) (e : ProviderErr) (st : FAISSStore) (c : Nat)
    (hmt : s.vs.modeltype ≠ .other)
    (hstore : s.vs.store = some st) (hidx : st.index = some c)
    (hsucc : ∀ j, j < m → oracle (s.calls + j) = none)
    (hfail : oracle (s.calls + m) = some e)
    (hreach : start + m * s.vs.stepsize < ch.docs.length)
    (hstep : 0 < s.vs.stepsize) :
    ∃ (k : Nat) (L : List LogMsg),
      add_chunks oracle s ch start =
        ({ s with
            vs := { s.vs with store := some ⟨st.texts ++ (ch.docs.drop start).take (m * s.vs.stepsize),
              st.metadatas ++ (ch.metadatas.drop start).take (m * s.vs.stepsize),
              some (c + ((ch.docs.drop start).take (m * s.vs.stepsize)).length)⟩ }
            calls := k
            log := s.log ++ L }, some (.providerFailure e)) ∧
      L.getLast? = some (.addingRange (start + m * s.vs.stepsize)
        (start + m * s.vs.stepsize + s.vs.stepsize) ch.docs.length) :=
  add_chunks_fail oracle s ch start m e st c hmt hstore hidx hsucc hfail hreach hstep

/-- A provider that fails on every batch call. -/
def boomOracle : Oracle := fun _ => some ("boom")

/-- An initialized in-memory system with an empty attached store. -/
def demoLoadedSys : Sys :=
  ⟨{ mkVectorStore demoSettings with initialized := true, store := some ⟨[], [], some 0⟩ },
   ⟨none, none⟩, 0, []⟩

/-- Witness for the amended C5 at a concrete input: the very first batch
fails, nothing is committed, and the provider error is surfaced. -/
theorem C5_witness :
    ∃ (k : Nat) (L : List LogMsg),
      add_chunks boomOracle demoLoadedSys ⟨[['a']], ["f1.md"]⟩ 0 =
        ({ demoLoadedSys with
            vs := { demoLoadedSys.vs with store := some ⟨([] : List Text) ++ (([['a']] : List Text).drop 0).take (0 * demoLoadedSys.vs.stepsize),
              ([] : List Source) ++ ((["f1.md"] : List Source).drop 0).take (0 * demoLoadedSys.vs.stepsize),
              some (0 + ((([['a']] : List Text).drop 0).take (0 * demoLoadedSys.vs.stepsize)).length)⟩ }
            calls := k
            log := demoLoadedSys.log ++ L }, some (.providerFailure ("boom"))) ∧
      L.getLast? = some (.addingRange (0 + 0 * demoLoadedSys.vs.stepsize)
        (0 + 0 * demoLoadedSys.vs.stepsize + demoLoadedSys.vs.stepsize)
        ([['a']] : List Text).length :
      LogMsg) :=
  C5_batch_failure_keeps_committed boomOracle demoLoadedSys ⟨[['a']], ["f1.md"]⟩ 0 0
    "boom" ⟨[], [], some 0⟩ 0 (by decide) rfl rfl
    (fun j hj => absurd hj (by omega)) rfl (by decide) (by decide)

/-- C6 (code bug): the claim says a second `create` fails with
`AlreadyInitialized` and leaves the existing index unmodified.  Evaluated
on the code: a second `create_store` returns without error (only a warning
is logged).  With a small second datastore (at most `stepsize` chunks) the
store happens to be left unchanged; with a 101-chunk second datastore the
existing index is modified — the chunks beyond index 100 are appended to
it (and the first 100 chunks of the new datastore are silently dropped),
growing the one-chunk store to two chunks. -/
theorem C6_second_create_not_rejected :
    ∃ (s₁ s₂ s₃ : Sys) (st₁ st₃ : FAISSStore),
      create_store okOracle demoSys [demoDoc] = (s₁, none) ∧
      create_store okOracle s₁ [demoDoc] = (s₂, none) ∧
      s₂.vs.store = s₁.vs.store ∧
      create_store okOracle s₁ (List.replicate 101 demoDoc) = (s₃, none) ∧
      s₁.vs.store = some st₁ ∧ st₁.texts.length = 1 ∧
      s₃.vs.store = some st₃ ∧ st₃.texts.length = 2 := by
  have hdc : chunk_datastore_chunk demoSys.vs.chunkSize demoSys.vs.separator [demoDoc] =
      ⟨[['a']], ["f1.md"]⟩ := demo_chunk
  have hrep : chunk_datastore_chunk demoSys.vs.chunkSize demoSys.vs.separator
      (List.replicate 101 demoDoc) =
      ⟨List.replicate 101 ['a'], List.replicate 101 "f1.md"⟩ :=
    chunk_datastore_chunk_replicate _ _ 101 demoDoc demo_split
  obtain ⟨s₁, h1, h2, h3, h4, hcs, hsep, hmt, hstep⟩ :=
    create_store_ok okOracle (fun _ => rfl) demoSys [demoDoc] rfl (by decide) (by decide)
  obtain ⟨s₂, g1, g2, g3⟩ := create_store_on_initialized okOracle (fun _ => rfl) s₁ [demoDoc]
    _ _ h3 (by rw [hstep]; decide) (by rw [hmt]; decide) h2 rfl
  obtain ⟨s₃, k1, k2, k3⟩ := create_store_on_initialized okOracle (fun _ => rfl) s₁
    (List.replicate 101 demoDoc) _ _ h3 (by rw [hstep]; decide) (by rw [hmt]; decide) h2 rfl
  rw [hcs, hsep] at g2 k2
  rw [hdc] at g2 h2
  rw [hrep] at k2
  rw [hstep] at g2 k2
  refine ⟨s₁, s₂, s₃, _, _, h1, g1, ?_, k1, h2, ?_, k2, ?_⟩
  · rw [g2, h2]
    simp [demoSys, mkVectorStore, demoSettings]
  · simp
  · simp [hdc, demo_chunk, demoSys, mkVectorStore, demoSettings]

/-- A run configured with an unsupported model-type value. -/
def otherSys : Sys := ⟨mkVectorStore ⟨1500, ['\n'], .other⟩, ⟨none, none⟩, 0, []⟩

/-- C7 counterexample: the claim says an unsupported model-type value is
rejected at construction time, before any chunking.  In the code,
construction (`__init__`) performs no model-type validation — it is a total
function — and the rejection happens in `get_embeddings`, reached from
`init_store` only after `chunk_datastore` has already chunked the whole
datastore: in this run the error is raised with the log already containing
the "Processed datastore into 1 chunks." line. -/
theorem C7_counterexample :
    ∃ s' : Sys,
      create_store okOracle otherSys [demoDoc] = (s', some Err.modelTypeNotSupported) ∧
      LogMsg.processedInto 1 ∈ s'.log := by
  have hc : chunk_datastore_chunk otherSys.vs.chunkSize otherSys.vs.separator [demoDoc] =
      ⟨[['a']], ["f1.md"]⟩ := demo_chunk
  simp only [create_store, chunk_datastore, Sys.pushLog, init_store]
  refine ⟨_, rfl, ?_⟩
  rw [hc]
  simp

/-- C7 amended: for a model-type value outside the two supported variants,
construction succeeds (it performs no validation) and `create_store` fails
with `ValueError("Model type not supported")` only when `get_embeddings`
is first consulted — inside `init_store`, after `chunk_datastore` has
chunked every document, as the final log line order records.  No store is
created, the `initialized` flag stays false, and the filesystem is
untouched. -/
theorem C7_unsupported_rejected_after_chunking (oracle : Oracle) (s : Sys) (ds : DataStore)
    (hmt : s.vs.modeltype = .other) (hinit : s.vs.initialized = false) :
    ∃ s' : Sys,
      create_store oracle s ds = (s', some Err.modelTypeNotSupported) ∧
      s'.vs.store = s.vs.store ∧ s'.vs.initialized = false ∧ s'.fs = s.fs ∧
      s'.log = s.log ++ [LogMsg.buildingFrom ds.length,
        LogMsg.processedInto (chunk_datastore_chunk s.vs.chunkSize s.vs.separator ds).docs.length,
        LogMsg.initializingFirst s.vs.stepsize] := by
  have hge : get_embeddings s.vs = some Err.modelTypeNotSupported := by
    unfold get_embeddings
    rw [hmt]
  simp only [create_store, chunk_datastore, Sys.pushLog, init_store, hinit,
    Bool.false_eq_true, if_false, hge]
  exact ⟨_, rfl, rfl, hinit, rfl, by simp⟩

/-- Witness for the amended C7 at a concrete input. -/
theorem C7_witness :
    ∃ s' : Sys,
      create_store okOracle otherSys [demoDoc] = (s', some Err.modelTypeNotSupported) ∧
      s'.vs.store = otherSys.vs.store ∧ s'.vs.initialized = false ∧
      s'.fs = otherSys.fs ∧
      s'.log = otherSys.log ++ [LogMsg.buildingFrom 1,
        LogMsg.processedInto (chunk_datastore_chunk otherSys.vs.chunkSize
          otherSys.vs.separator [demoDoc]).docs.length,
        LogMsg.initializingFirst otherSys.vs.stepsize] :=
  C7_unsupported_rejected_after_chunking okOracle otherSys [demoDoc] rfl rfl

/-- C8: for every non-empty text containing no occurrence of the
separator, the Chunker emits exactly one chunk equal to the full text,
regardless of `chunk_size`; and, in general, every separator-delimited
piece longer than `chunk_size` is emitted as its own oversized chunk,
whole — never truncated or dropped. -/
theorem C8_chunker_single_piece (chunkSize : Nat) (sep text : Text) :
    (text ≠ [] → ¬ sep <:+: text → splitText chunkSize sep text = [text]) ∧
    (∀ p ∈ splitOnSepAux sep text [], chunkSize < p.length →
      p ∈ splitText chunkSize sep text) :=
  ⟨fun _ hni => splitText_no_occurrence chunkSize sep text hni,
   fun p hp hplen => splitText_oversized_mem chunkSize sep text p hp hplen⟩

/-- Witness for C8: a two-character text with no newline, chunk size 1
(so the single piece is oversized), is emitted as one untruncated chunk. -/
theorem C8_witness :
    splitText 1 ['\n'] ['a', 'b'] = [['a', 'b']] ∧
    ['a', 'b'] ∈ splitText 1 ['\n'] ['a', 'b'] := by
  have h := C8_chunker_single_piece 1 ['\n'] ['a', 'b']
  refine ⟨h.1 (by decide) (by decide), h.2 ['a', 'b'] ?_ (by decide)⟩
  rw [splitOnSepAux_no_occurrence ['\n'] ['a', 'b'] [] (by decide)]
  simp

/-- The filtering behaviour of the `load_files` loop, folded out. -/
theorem load_files_loop_spec (fts : List String) :
    ∀ (files : List FileEntry) (ds : List Document) (nd ns : Nat),
      load_files_loop fts files ds nd ns =
        ⟨ds ++ ((files.filter (fun f => fts.contains f.ext)).map FileEntry.doc).filter
            (fun d => 0 < d.text.length),
         nd + (((files.filter (fun f => fts.contains f.ext)).map FileEntry.doc).filter
            (fun d => 0 < d.text.length)).length,
         ns + (files.filter (fun f => !fts.contains f.ext)).length⟩ := by
  intro files
  induction files with
  | nil => intro ds nd ns; simp [load_files_loop]
  | cons f fs ih =>
    intro ds nd ns
    by_cases hext : fts.contains f.ext
    · have hm : f.ext ∈ fts := by simpa using hext
      by_cases htxt : 0 < f.doc.text.length
      · simp [load_files_loop, hext, hm, htxt, ih, List.filter_cons,
          Nat.add_assoc, Nat.add_comm, Nat.add_left_comm]
      · simp [load_files_loop, hext, hm, htxt, ih, List.filter_cons]
    · have hm : ¬ f.ext ∈ fts := by simpa using hext
      simp [load_files_loop, hext, hm, ih, List.filter_cons,
        Nat.add_assoc, Nat.add_comm, Nat.add_left_comm]

/-- C9: a file accepted by the loader (extension among the configured
filetypes) has its parsed `Document` added to the datastore exactly when
its extracted text is non-empty; the result preserves the prior contents
and document order, empty-text documents are dropped before reaching the
datastore, and the outcome is reported only through the count-level
numbers of the closing notices (`load_files` is total — dropping is never
an error). -/
theorem C9_empty_text_documents_dropped (fts : List String) (files : List FileEntry)
    (prior : List Document) :
    (load_files fts files prior).datastore =
      prior ++ ((files.filter (fun f => fts.contains f.ext)).map FileEntry.doc).filter
        (fun d => 0 < d.text.length) ∧
    (load_files fts files prior).numDocs =
      (((files.filter (fun f => fts.contains f.ext)).map FileEntry.doc).filter
        (fun d => 0 < d.text.length)).length ∧
    (load_files fts files prior).numSkipped =
      (files.filter (fun f => !fts.contains f.ext)).length := by
  unfold load_files
  rw [load_files_loop_spec]
  simp

/-- C10: after a successful `save`, the in-memory wrapper's `index`
attribute is `None` — detached before pickling and never reattached — and
both artifacts are on disk (the pickled wrapper with its detached index);
a subsequent `load` is what restores the index from the index artifact and
re-marks the store initialized. -/
theorem C10_save_detaches_index (s : Sys) (st : FAISSStore) (c : Nat)
    (hstore : s.vs.store = some st) (hidx : st.index = some c) :
    ∃ s' : Sys,
      save s = (s', none) ∧
      s'.vs.store = some ⟨st.texts, st.metadatas, none⟩ ∧
      s'.fs.indexFile = some c ∧
      s'.fs.storeFile = some ⟨st.texts, st.metadatas, none⟩ ∧
      ∃ s'' : Sys, load s' = (s'', none) ∧
        s''.vs.store = some ⟨st.texts, st.metadatas, some c⟩ ∧
        s''.vs.initialized = true := by
  simp only [save, hstore, hidx]
  refine ⟨_, rfl, rfl, rfl, rfl, ?_⟩
  unfold load
  exact ⟨_, rfl, rfl, rfl⟩

/-- An initialized in-memory system holding one chunk with an attached
one-vector index. -/
def demoSavedSys : Sys :=
  ⟨{ mkVectorStore demoSettings with
      initialized := true
      store := some ⟨[['a']], ["f1.md"], some 1⟩ }, ⟨none, none⟩, 0, []⟩

/-- Witness for C10 at a concrete one-chunk store. -/
theorem C10_witness :
    ∃ s' : Sys,
      save demoSavedSys = (s', none) ∧
      s'.vs.store = some ⟨[['a']], ["f1.md"], none⟩ ∧
      s'.fs.indexFile = some 1 ∧
      s'.fs.storeFile = some ⟨[['a']], ["f1.md"], none⟩ ∧
      ∃ s'' : Sys, load s' = (s'', none) ∧
        s''.vs.store = some ⟨[['a']], ["f1.md"], some 1⟩ ∧
        s''.vs.initialized = true :=
  C10_save_detaches_index demoSavedSys ⟨[['a']], ["f1.md"], some 1⟩ 1 rfl rfl

end Chatlocal
